import Mathlib

/-!
Mini-e-commerce: login, token issuance and the authentication middleware.

A shallow embedding of `internal/api/middleware.go`, `internal/api/handlers.go`
and `cmd/api/main.go`.

The handlers are translated statement by statement.  The libraries they call
(gin, golang-jwt v5, bcrypt, encoding/json, base64) are not part of the
repository.  Their control flow is transcribed where it decides a property (the
order of checks in `jwt.Parse`, the registered-claim validator, the type
assertion inside `gin.Context.GetInt`); their data codecs and cryptographic
primitives are fields of the structure `Lib` and stay arbitrary.  The query
wrappers of `internal/db`, generated by sqlc, are the fields of `Queries` and
stay arbitrary as well.

Conventions: a Go `string` is a Lean `String`; an instant is a number of
nanoseconds since the Unix epoch; a `float64` that came out of a JSON document
is the rational number it denotes.  The hashes behind HS256, HS384 and HS512 are
taken to be linked into the program (net/http brings them in), so `Sign` and
`Verify` never report an unavailable hash.  `router.Run` is taken to serve.
-/

namespace MiniECommerce

/-! ## Go values -/

/-- A Go string. -/
abbrev GoString := String

/-- A byte slice. -/
abbrev Bytes := List UInt8

/-- An instant, in nanoseconds since the Unix epoch. -/
abbrev Time := Int

/-- The dynamic values an `interface{}` holds in this program: what
`json.Unmarshal` puts into a `map[string]interface{}` (nil, bool, float64,
string, and nested arrays and objects, whose content is never inspected), and the
integer types the handlers store. -/
inductive GoAny where
  | nil
  | bool (b : Bool)
  | int (n : Int)
  | int32 (n : Int)
  | int64 (n : Int)
  | float64 (f : ℚ)
  | string (s : String)
  | composite
  deriving DecidableEq

/-- A Go `map[string]interface{}` as an association list; the first entry for
a key is the binding. -/
abbrev GoMap := List (String × GoAny)

/-- Go `m[k]` on a `map[string]interface{}`: the nil interface when the key is absent. -/
def GoMap.index (m : GoMap) (k : String) : GoAny :=
  (m.lookup k).getD GoAny.nil

/-- Go `m[k] = v`. -/
def GoMap.set (m : GoMap) (k : String) (v : GoAny) : GoMap :=
  (k, v) :: m

/-- Go `strings.HasPrefix(s, pre)`. -/
def HasPrefix (s pre : String) : Bool :=
  pre.data.isPrefixOf s.data

/-- Go `strings.TrimPrefix(s, pre)`. -/
def TrimPrefix (s pre : String) : String :=
  if HasPrefix s pre then String.mk (s.data.drop pre.data.length) else s

/-- Go `strings.Split(s, ".")`, on the characters of `s`. -/
def splitOnDot : List Char → List (List Char)
  | [] => [[]]
  | c :: cs =>
    if c = '.' then [] :: splitOnDot cs
    else
      match splitOnDot cs with
      | [] => [[c]]
      | p :: ps => (c :: p) :: ps

/-- Go `int32(n)` for an `int` or `int64` value: wraps modulo 2^32. -/
def wrapInt32 (n : Int) : Int :=
  (n + 2 ^ 31) % 2 ^ 32 - 2 ^ 31

/-- The decoded body of `POST /login`. -/
structure LoginRequest where
  Email : String
  Password : String
  deriving DecidableEq

/-- The decoded body of `POST /orders`. -/
structure OrderRequest where
  Total : ℚ

/-! ## golang-jwt v5 -/

/-- The signing methods golang-jwt registers. -/
inductive SigningMethod where
  | HS256 | HS384 | HS512
  | RS256 | RS384 | RS512
  | PS256 | PS384 | PS512
  | ES256 | ES384 | ES512
  | EdDSA
  | none
  deriving DecidableEq

/-- The `alg` header value of a signing method (`SigningMethod.Alg`). -/
def SigningMethod.Alg : SigningMethod → String
  | .HS256 => "HS256" | .HS384 => "HS384" | .HS512 => "HS512"
  | .RS256 => "RS256" | .RS384 => "RS384" | .RS512 => "RS512"
  | .PS256 => "PS256" | .PS384 => "PS384" | .PS512 => "PS512"
  | .ES256 => "ES256" | .ES384 => "ES384" | .ES512 => "ES512"
  | .EdDSA => "EdDSA"
  | .none => "none"

/-- Library function `jwt.GetSigningMethod`. -/
def GetSigningMethod (alg : String) : Option SigningMethod :=
  [SigningMethod.HS256, .HS384, .HS512, .RS256, .RS384, .RS512, .PS256, .PS384, .PS512,
    .ES256, .ES384, .ES512, .EdDSA, .none].find? (fun m => m.Alg == alg)

/-- What the program takes from its libraries and its platform without fixing it
here.  Every field is an arbitrary function. -/
structure Lib where
  /-- Unpadded base64url encoding (`Token.EncodeSegment`). -/
  EncodeSegment : Bytes → String
  /-- Unpadded base64url decoding (`Parser.DecodeSegment`); `none` is an error. -/
  DecodeSegment : String → Option Bytes
  /-- Library function `json.Marshal` on a map; `none` is an error. -/
  Marshal : GoMap → Option Bytes
  /-- Library function `json.Unmarshal` into a `map[string]interface{}`; `none` is an error. -/
  Unmarshal : Bytes → Option GoMap
  /-- The HMAC of a message under a key, for the hash of an HS method. -/
  hmac : SigningMethod → String → String → Bytes
  /-- Whether `bcrypt.CompareHashAndPassword(hash, password)` returns nil. -/
  CompareHashAndPassword : String → String → Bool
  /-- Go `int32(f)` for a float64 whose integer part is outside the int32 range
  (the language leaves the result to the implementation). -/
  int32Overflow : ℚ → Int
  /-- The instant `newNumericDateFromSeconds(f)` yields for a float64 that is not
  a whole number of seconds of magnitude at most 2^53 (the result goes through
  float64 arithmetic). -/
  numericDateInexact : ℚ → Time
  /-- Body decoding of `c.BindJSON` for the login body; `none` is an error. -/
  BindLogin : String → Option LoginRequest
  /-- Body decoding of `c.BindJSON` for the order body; `none` is an error. -/
  BindOrder : String → Option OrderRequest
  /-- Go `fmt.Sprintf("%.2f", f)`. -/
  Sprintf2 : ℚ → String
  /-- The first result of `strconv.Atoi(s)`. -/
  Atoi : String → Int

/-- Go `int32(f)` for a float64 `f`: the fraction is discarded. -/
def int32OfFloat64 (L : Lib) (f : ℚ) : Int :=
  let t : Int := if 0 ≤ f then ⌊f⌋ else ⌈f⌉
  if -2 ^ 31 ≤ t ∧ t < 2 ^ 31 then t else L.int32Overflow f

/-- Library function `newNumericDateFromSeconds`, truncated to `TimePrecision`
(one second): a whole number of seconds is that instant. -/
def newNumericDateFromSeconds (L : Lib) (f : ℚ) : Time :=
  if f.den = 1 ∧ f.num.natAbs ≤ 2 ^ 53 then f.num * 10 ^ 9 else L.numericDateInexact f

/-- The validation errors of `Validator.Validate` that can arise with the
default validator. -/
inductive ValidationError where
  | ErrTokenExpired
  | ErrTokenNotValidYet
  | ErrInvalidType
  deriving DecidableEq

/-- The errors of `jwt.Parse`. -/
inductive JwtError where
  | ErrTokenMalformed
  | ErrTokenUnverifiable
  | ErrTokenSignatureInvalid
  | ErrTokenInvalidClaims (errs : List ValidationError)
  deriving DecidableEq

/-- Library type `jwt.Token`. -/
structure Token where
  Raw : String
  Method : Option SigningMethod
  Header : GoMap
  Claims : GoMap
  Signature : Bytes
  Valid : Bool
  deriving DecidableEq

/-- Library function `MapClaims.parseNumericDate`: an absent key and a zero are
no date, any value other than a float64 is `ErrInvalidType`. -/
def parseNumericDate (L : Lib) (m : GoMap) (key : String) : Except ValidationError (Option Time) :=
  match m.lookup key with
  | none => .ok none
  | some (.float64 f) => if f = 0 then .ok none else .ok (some (newNumericDateFromSeconds L f))
  | some _ => .error .ErrInvalidType

/-- Library function `Validator.verifyExpiresAt` (claim not required, no leeway):
the comparison is `cmp.Before(exp)`. -/
def verifyExpiresAt (L : Lib) (claims : GoMap) (cmp : Time) : Option ValidationError :=
  match parseNumericDate L claims "exp" with
  | .error e => some e
  | .ok none => none
  | .ok (some exp) => if cmp < exp then none else some .ErrTokenExpired

/-- Library function `Validator.verifyNotBefore` (claim not required, no leeway):
the comparison is `!cmp.Before(nbf)`. -/
def verifyNotBefore (L : Lib) (claims : GoMap) (cmp : Time) : Option ValidationError :=
  match parseNumericDate L claims "nbf" with
  | .error e => some e
  | .ok none => none
  | .ok (some nbf) => if ¬ cmp < nbf then none else some .ErrTokenNotValidYet

/-- Library function `Validator.Validate` with the default options: expiry and
not-before are checked, issued-at, audience, issuer and subject are not.  The
result is the list of errors, empty when the claims are valid. -/
def Validate (L : Lib) (claims : GoMap) (now : Time) : List ValidationError :=
  (verifyExpiresAt L claims now).toList ++ (verifyNotBefore L claims now).toList

/-- Method `Verify` of a signing method with a `[]byte` key: the HS methods compare
the signature with the HMAC of the signing string (`hmac.Equal`); every other
method rejects the key type. -/
def SigningMethod.Verify (L : Lib) (m : SigningMethod) (signingString : String)
    (sig : Bytes) (key : String) : Bool :=
  match m with
  | .HS256 | .HS384 | .HS512 => decide (sig = L.hmac m key signingString)
  | _ => false

/-- Method `Sign` of `SigningMethodHS256` with a `[]byte` key. -/
def SigningMethod.Sign (L : Lib) (m : SigningMethod) (signingString : String) (key : String) :
    Bytes :=
  L.hmac m key signingString

/-- The pair `(token, err)` that `jwt.Parse` returns. -/
structure ParseResult where
  token : Option Token
  err : Option JwtError
  deriving DecidableEq

/-- Library function `jwt.Parse(tokenString, keyFunc)` with the default parser,
`MapClaims`, and a key function that returns `key` for every token, run at the
instant `now`.  In order: three segments; header and claims decoded; `alg`
looked up; signature decoded; signature verified; claims validated. -/
def Parse (L : Lib) (key : String) (now : Time) (tokenString : String) : ParseResult :=
  match splitOnDot tokenString.data with
  | [p0, p1, p2] =>
    let token : Token :=
      { Raw := tokenString, Method := none, Header := [], Claims := [], Signature := [],
        Valid := false }
    match (L.DecodeSegment (String.mk p0)).bind L.Unmarshal with
    | none => ⟨some token, some .ErrTokenMalformed⟩
    | some header =>
      let token := { token with Header := header }
      match (L.DecodeSegment (String.mk p1)).bind L.Unmarshal with
      | none => ⟨some token, some .ErrTokenMalformed⟩
      | some claims =>
        let token := { token with Claims := claims }
        match header.index "alg" with
        | .string alg =>
          match GetSigningMethod alg with
          | none => ⟨some token, some .ErrTokenUnverifiable⟩
          | some method =>
            let token := { token with Method := some method }
            match L.DecodeSegment (String.mk p2) with
            | none => ⟨some token, some .ErrTokenMalformed⟩
            | some sig =>
              let token := { token with Signature := sig }
              let text := String.mk (p0 ++ '.' :: p1)
              if ¬ method.Verify L text sig key then
                ⟨some token, some .ErrTokenSignatureInvalid⟩
              else
                match Validate L claims now with
                | [] => ⟨some { token with Valid := true }, none⟩
                | errs => ⟨some token, some (.ErrTokenInvalidClaims errs)⟩
        | _ => ⟨some token, some .ErrTokenUnverifiable⟩
  | _ => ⟨none, some .ErrTokenMalformed⟩

/-- Method `Token.SignedString(key)` of `jwt.NewWithClaims(method, claims)`: the
header is `typ: JWT, alg: <method>`; both maps are marshalled and encoded, and the
signature of `header.claims` is appended. -/
def SignedString (L : Lib) (method : SigningMethod) (claims : GoMap) (key : String) :
    Except Unit String :=
  let header : GoMap := [("typ", .string "JWT"), ("alg", .string method.Alg)]
  match L.Marshal header, L.Marshal claims with
  | some h, some c =>
    let sstr := L.EncodeSegment h ++ "." ++ L.EncodeSegment c
    .ok (sstr ++ "." ++ L.EncodeSegment (method.Sign L sstr key))
  | _, _ => .error ()

/-! ## gin -/

/-- The parts of an HTTP request the handlers read. -/
structure Request where
  Header : List (String × String)
  Body : String
  deriving DecidableEq

/-- A row struct of package `internal/db` (generated by sqlc), by the fields of
the JSON object it renders to. -/
structure Row where
  fields : GoMap
  deriving DecidableEq

/-- Go `sql.NullString`. -/
structure NullString where
  String : GoString
  Valid : Bool
  deriving DecidableEq

/-- The struct `db.CreateOrderParams`, by the fields the handler sets. -/
structure CreateOrderParams where
  UserID : Int
  Total : NullString
  deriving DecidableEq

/-- The struct `db.ListAvailableProductsParams`, by the fields the handler sets. -/
structure ListAvailableProductsParams where
  Limit : Int
  Offset : Int
  deriving DecidableEq

/-- The struct `db.User`, by the fields the login handler reads; `ID` is an
`int32`. -/
structure User where
  ID : Int
  PasswordHash : String
  deriving DecidableEq

/-- A call made on `db.Queries`, with its arguments. -/
inductive DbCall where
  | GetUserByEmail (email : String)
  | ListAvailableProducts (arg : ListAvailableProductsParams)
  | GetProductByID (id : Int)
  | CreateOrder (arg : CreateOrderParams)
  | ListOrdersByUser (userID : Int)
  deriving DecidableEq

/-- The query wrappers the handlers call; `.error` is a non-nil `err`. -/
structure Queries where
  GetUserByEmail : String → Except Unit User
  ListAvailableProducts : ListAvailableProductsParams → Except Unit (List Row)
  GetProductByID : Int → Except Unit Row
  CreateOrder : CreateOrderParams → Except Unit Row
  ListOrdersByUser : Int → Except Unit (List Row)

/-- A response body written with `c.JSON`. -/
inductive Body where
  | H (m : GoMap)
  | row (r : Row)
  | rows (rs : List Row)
  deriving DecidableEq

/-- The state of a `gin.Context`: the request, the route parameters, the `Keys`
map, the response status and body, whether the chain was aborted, and the
database calls made so far (oldest first). -/
structure Context where
  Request : MiniECommerce.Request
  Params : List (String × String)
  Keys : GoMap
  status : Nat
  body : Option Body
  aborted : Bool
  calls : List DbCall
  deriving DecidableEq

/-- A fresh context for a request: status 200, nothing written. -/
def Context.new (r : MiniECommerce.Request) : Context :=
  { Request := r, Params := [], Keys := [], status := 200, body := none, aborted := false,
    calls := [] }

/-- Method `c.GetHeader(key)`: the empty string when the header is absent. -/
def Context.GetHeader (c : Context) (key : String) : String :=
  (c.Request.Header.lookup key).getD ""

/-- Method `c.Param(key)`: the empty string when the route has no such parameter. -/
def Context.Param (c : Context) (key : String) : String :=
  (c.Params.lookup key).getD ""

/-- Method `c.Status(code)`. -/
def Context.Status (c : Context) (code : Nat) : Context :=
  { c with status := code }

/-- Method `c.AbortWithStatus(code)`: writes the status and stops the chain.
`c.BindJSON` calls it with 400 when the body does not decode. -/
def Context.AbortWithStatus (c : Context) (code : Nat) : Context :=
  { c with status := code, aborted := true }

/-- Method `c.JSON(code, obj)`. -/
def Context.JSON (c : Context) (code : Nat) (obj : Body) : Context :=
  { c with status := code, body := some obj }

/-- Method `c.Set(key, value)`. -/
def Context.Set (c : Context) (key : String) (value : GoAny) : Context :=
  { c with Keys := c.Keys.set key value }

/-- Method `c.GetInt(key)`: the stored value when it is present, non-nil and of
dynamic type `int` (`i, _ = val.(int)`), zero otherwise. -/
def Context.GetInt (c : Context) (key : String) : Int :=
  match c.Keys.lookup key with
  | some (.int i) => i
  | _ => 0

/-- Records a call on `db.Queries`. -/
def Context.call (c : Context) (d : DbCall) : Context :=
  { c with calls := c.calls ++ [d] }

/-- How a handler ends: it returns, or a run-time panic unwinds it. -/
inductive Flow where
  | done (c : Context)
  | panic (c : Context)
  deriving DecidableEq

/-- A gin handler.  A middleware additionally receives the rest of the chain,
which `c.Next()` runs. -/
abbrev HandlerFunc := Context → Flow

/-! ## internal/api/middleware.go -/

/-- The handler returned by `AuthMiddleware()`.  `secret` is the value of
`JWT_SECRET` read when the middleware was built, `now` the instant of the
request, `next` the downstream chain. -/
def AuthMiddleware (L : Lib) (secret : String) (now : Time) (next : HandlerFunc) :
    HandlerFunc := fun c =>
  let h := c.GetHeader "Authorization"
  if ¬ HasPrefix h "Bearer " then
    .done (c.AbortWithStatus 401)
  else
    let tokenStr := TrimPrefix h "Bearer "
    let r := Parse L secret now tokenStr
    match r.err, r.token with
    | some _, _ => .done (c.AbortWithStatus 401)
    | none, none => .panic c
    | none, some token =>
      if ¬ token.Valid then
        .done (c.AbortWithStatus 401)
      else
        match token.Claims.index "sub" with
        | .float64 f => next (c.Set "user_id" (.int32 (int32OfFloat64 L f)))
        | _ => .panic c

/-! ## internal/api/handlers.go -/

/-- The process environment. -/
abbrev Env := String → Option String

/-- Go `os.Getenv`: the empty string when the variable is not set. -/
def Getenv (env : Env) (key : String) : String :=
  (env key).getD ""

/-- Go `time.Now().Add(15 * time.Minute).Unix()`. -/
def expiryUnix (now : Time) : Int :=
  (now + 15 * (60 * 10 ^ 9)) / 10 ^ 9

/-- The handler of `POST /login`.  `env` and `now` are the environment and the
clock at the time of the request. -/
def login (L : Lib) (q : Queries) (env : Env) (now : Time) : HandlerFunc := fun c =>
  match L.BindLogin c.Request.Body with
  | none => .done ((c.AbortWithStatus 400).Status 400)
  | some req =>
    let c := c.call (.GetUserByEmail req.Email)
    match q.GetUserByEmail req.Email with
    | .error _ => .done (c.Status 401)
    | .ok user =>
      if ¬ L.CompareHashAndPassword user.PasswordHash req.Password then
        .done (c.Status 401)
      else
        let claims : GoMap := [("sub", .int32 user.ID), ("exp", .int64 (expiryUnix now))]
        match SignedString L .HS256 claims (Getenv env "JWT_SECRET") with
        | .error _ => .done (c.Status 500)
        | .ok signed => .done (c.JSON 200 (.H [("access_token", .string signed)]))

/-- The handler of `GET /users/me`. -/
def usersMe : HandlerFunc := fun c =>
  .done (c.JSON 200 (.H [("user_id", .int (c.GetInt "user_id"))]))

/-- The handler of `POST /orders`. -/
def createOrder (L : Lib) (q : Queries) : HandlerFunc := fun c =>
  match L.BindOrder c.Request.Body with
  | none => .done ((c.AbortWithStatus 400).Status 400)
  | some req =>
    let arg : CreateOrderParams :=
      { UserID := wrapInt32 (c.GetInt "user_id"),
        Total := { String := L.Sprintf2 req.Total, Valid := true } }
    let c := c.call (.CreateOrder arg)
    match q.CreateOrder arg with
    | .error _ => .done (c.Status 500)
    | .ok order => .done (c.JSON 201 (.row order))

/-- The handler of `GET /orders`. -/
def listOrders (q : Queries) : HandlerFunc := fun c =>
  let uid := wrapInt32 (c.GetInt "user_id")
  let c := c.call (.ListOrdersByUser uid)
  match q.ListOrdersByUser uid with
  | .error _ => .done (c.Status 500)
  | .ok orders => .done (c.JSON 200 (.rows orders))

/-- The handler of `GET /products`. -/
def listProducts (q : Queries) : HandlerFunc := fun c =>
  let arg : ListAvailableProductsParams := { Limit := 10, Offset := 0 }
  let c := c.call (.ListAvailableProducts arg)
  match q.ListAvailableProducts arg with
  | .error _ => .done (c.Status 500)
  | .ok products => .done (c.JSON 200 (.rows products))

/-- The helper `mustAtoi`: the error of `strconv.Atoi` is dropped. -/
def mustAtoi (L : Lib) (s : String) : Int :=
  L.Atoi s

/-- The handler of `GET /products/:id`. -/
def getProduct (L : Lib) (q : Queries) : HandlerFunc := fun c =>
  let id := mustAtoi L (c.Param "id")
  let c := c.call (.GetProductByID (wrapInt32 id))
  match q.GetProductByID (wrapInt32 id) with
  | .error _ => .done (c.Status 404)
  | .ok product => .done (c.JSON 200 (.row product))

/-- The routing table `RegisterRoutes` builds: the handler chain registered for
a method and a route pattern, `none` when the function registers nothing for
them.  `regEnv` is the environment when the routes are registered
(`AuthMiddleware()` reads `JWT_SECRET` then); `env` and `now` are the environment
and the clock of the request being served. -/
def RegisterRoutes (L : Lib) (q : Queries) (regEnv : Env) (env : Env) (now : Time)
    (method pattern : String) : Option HandlerFunc :=
  let auth := AuthMiddleware L (Getenv regEnv "JWT_SECRET") now
  if method = "POST" ∧ pattern = "/login" then some (login L q env now)
  else if method = "GET" ∧ pattern = "/users/me" then some (auth usersMe)
  else if method = "GET" ∧ pattern = "/products" then some (listProducts q)
  else if method = "GET" ∧ pattern = "/products/:id" then some (getProduct L q)
  else if method = "POST" ∧ pattern = "/orders" then some (auth (createOrder L q))
  else if method = "GET" ∧ pattern = "/orders" then some (auth (listOrders q))
  else none

/-! ## cmd/api/main.go -/

/-- The recovery middleware that `gin.Default()` installs in front of every
route: a panic of the chain becomes status 500 and the chain is aborted. -/
def Recovery (next : HandlerFunc) : HandlerFunc := fun c =>
  match next c with
  | .panic c => .done (c.AbortWithStatus 500)
  | .done c => .done c

/-- How `main` ends up: `log.Fatal` at startup, or serving requests with the
registered routes. -/
inductive Process where
  | fatal
  | serving (routes : Env → Time → String → String → Option HandlerFunc)

/-- The function `main`: the only fatal path is an error of `sql.Open`.  The
router is `gin.Default()`, so every registered chain runs under `Recovery`. -/
def main (L : Lib) (sqlOpen : String → Except Unit Queries) (env : Env) : Process :=
  match sqlOpen (Getenv env "DATABASE_URL") with
  | .error _ => .fatal
  | .ok queries =>
    .serving (fun reqEnv now method pattern =>
      (RegisterRoutes L queries env reqEnv now method pattern).map Recovery)

/-- The answer of a running process to a request routed to a pattern: `none`
when the process is not serving or has no handler for the pattern. -/
def Process.serve (p : Process) (env : Env) (now : Time) (method pattern : String)
    (c : Context) : Option Flow :=
  match p with
  | .fatal => none
  | .serving routes => (routes env now method pattern).map (fun h => h c)

/-- Whether startup ended in `log.Fatal`. -/
def Process.isFatal : Process → Bool
  | .fatal => true
  | .serving _ => false

/-! ## Laws of the codecs, and a reference library

The round trip of an issued token uses three facts about base64url and
encoding/json.  They are the content of `Lib.Lawful`.  `refLib` is a small
library that satisfies them; it gives the examples something to run on. -/

/-- The facts about base64url and encoding/json that token issuance relies on:
a segment decodes to the bytes it encodes and contains no dot; the token header
and a claims object of two integers of magnitude at most 2^53 survive
marshalling and unmarshalling, integers coming back as the float64 of the same
value. -/
structure Lib.Lawful (L : Lib) : Prop where
  decode_encode : ∀ b, L.DecodeSegment (L.EncodeSegment b) = some b
  encode_noDot : ∀ b, '.' ∉ (L.EncodeSegment b).data
  header : ∃ bs m, L.Marshal [("typ", .string "JWT"), ("alg", .string "HS256")] = some bs ∧
    L.Unmarshal bs = some m ∧
    ∀ k, m.lookup k = ([("typ", .string "JWT"), ("alg", .string "HS256")] : GoMap).lookup k
  claims : ∀ n e : Int, n.natAbs ≤ 2 ^ 53 → e.natAbs ≤ 2 ^ 53 →
    ∃ bs m, L.Marshal [("sub", .int32 n), ("exp", .int64 e)] = some bs ∧
      L.Unmarshal bs = some m ∧
      ∀ k, m.lookup k = ([("sub", .float64 n), ("exp", .float64 e)] : GoMap).lookup k

namespace Ref

/-- Encodes a byte as one character from code point 65 on (never a dot). -/
def encodeByte (x : UInt8) : Char :=
  Char.ofNat (x.toNat + 65)

/-- Inverse of `encodeByte`. -/
def decodeByte (c : Char) : Option UInt8 :=
  if 65 ≤ c.toNat ∧ c.toNat < 65 + 256 then some (UInt8.ofNat (c.toNat - 65)) else none

/-- Decodes a segment character by character. -/
def decodeChars : List Char → Option Bytes
  | [] => some []
  | c :: cs =>
    match decodeByte c, decodeChars cs with
    | some x, some xs => some (x :: xs)
    | _, _ => none

/-- The keys the reference documents know, by their one-byte code. -/
def keys : List String := ["alg", "typ", "sub", "exp", "nbf"]

/-- The strings the reference documents know, by their one-byte code. -/
def strings : List String := ["JWT", "HS256", "none", "abc"]

/-- Eight big-endian bytes of a natural number. -/
def natBytes (a : Nat) : Bytes :=
  [UInt8.ofNat (a / 256 ^ 7 % 256), UInt8.ofNat (a / 256 ^ 6 % 256),
   UInt8.ofNat (a / 256 ^ 5 % 256), UInt8.ofNat (a / 256 ^ 4 % 256),
   UInt8.ofNat (a / 256 ^ 3 % 256), UInt8.ofNat (a / 256 ^ 2 % 256),
   UInt8.ofNat (a / 256 % 256), UInt8.ofNat (a % 256)]

/-- A whole number as sign byte and magnitude. -/
def intBytes (n : Int) : Bytes :=
  (if n < 0 then 1 else 0) :: natBytes n.natAbs

/-- One entry of a reference document: key code, then tag 0 and a number, or
tag 1 and a string code. -/
def marshalEntry (kv : String × GoAny) : Option Bytes :=
  if keys.indexOf kv.1 < keys.length then
    let k := UInt8.ofNat (keys.indexOf kv.1)
    match kv.2 with
    | .int32 n | .int64 n | .int n => some (k :: 0 :: intBytes n)
    | .float64 f => if f.den = 1 then some (k :: 0 :: intBytes f.num) else none
    | .string s =>
      if strings.indexOf s < strings.length then some [k, 1, UInt8.ofNat (strings.indexOf s)]
      else none
    | _ => none
  else none

/-- A reference document: its entries one after the other. -/
def marshal : GoMap → Option Bytes
  | [] => some []
  | kv :: m =>
    match marshalEntry kv, marshal m with
    | some a, some b => some (a ++ b)
    | _, _ => none

/-- Reads a reference document back; numbers come back as float64. -/
def unmarshal : Bytes → Option GoMap
  | [] => some []
  | k :: 0 :: s :: b7 :: b6 :: b5 :: b4 :: b3 :: b2 :: b1 :: b0 :: rest =>
    let a : Nat := b7.toNat * 256 ^ 7 + b6.toNat * 256 ^ 6 + b5.toNat * 256 ^ 5 +
      b4.toNat * 256 ^ 4 + b3.toNat * 256 ^ 3 + b2.toNat * 256 ^ 2 + b1.toNat * 256 + b0.toNat
    let n : Int := if s = 0 then (a : Int) else -(a : Int)
    match keys.get? k.toNat, unmarshal rest with
    | some key, some m => some ((key, .float64 n) :: m)
    | _, _ => none
  | k :: 1 :: v :: rest =>
    match keys.get? k.toNat, strings.get? v.toNat, unmarshal rest with
    | some key, some str, some m => some ((key, .string str) :: m)
    | _, _, _ => none
  | _ => none

/-- A stand-in for the HMAC: the code points of key and message, modulo 256. -/
def mac (key msg : String) : Bytes :=
  (key.data ++ '|' :: msg.data).map (fun c => UInt8.ofNat c.toNat)

/-- Reads a login body of the shape `email password`. -/
def bindLogin (body : String) : Option LoginRequest :=
  if ' ' ∈ body.data then
    some { Email := String.mk (body.data.takeWhile (fun c => c != ' ')),
           Password := String.mk ((body.data.dropWhile (fun c => c != ' ')).drop 1) }
  else none

end Ref

/-- A reference library: one character per byte for the segments, a fixed-width
binary document format for the maps, a transparent stand-in for the HMAC and for
bcrypt (the hash of `p` is `bcrypt:p`). -/
def refLib : Lib where
  EncodeSegment b := String.mk (b.map Ref.encodeByte)
  DecodeSegment s := Ref.decodeChars s.data
  Marshal := Ref.marshal
  Unmarshal := Ref.unmarshal
  hmac _ key msg := Ref.mac key msg
  CompareHashAndPassword hash pw := hash == "bcrypt:" ++ pw
  int32Overflow _ := -2 ^ 31
  numericDateInexact f := ⌊f⌋ * 10 ^ 9
  BindLogin := Ref.bindLogin
  BindOrder body := if body = "" then none else some { Total := 10 }
  Sprintf2 _ := "10.00"
  Atoi _ := 0

/-- Query wrappers over a database with the single user 7, `a@x.com`, whose
password is `correct`, and no orders. -/
def refQueries : Queries where
  GetUserByEmail email :=
    if email = "a@x.com" then .ok { ID := 7, PasswordHash := "bcrypt:correct" } else .error ()
  ListAvailableProducts _ := .ok []
  GetProductByID _ := .error ()
  CreateOrder arg := .ok { fields := [("user_id", .int32 arg.UserID)] }
  ListOrdersByUser _ := .ok []

/-- Query wrappers over an empty database. -/
def noQueries : Queries where
  GetUserByEmail _ := .error ()
  ListAvailableProducts _ := .ok []
  GetProductByID _ := .error ()
  CreateOrder _ := .error ()
  ListOrdersByUser _ := .ok []

/-! ## Descriptions used to state the properties -/

/-- The signature check as `jwt.Parse` performs it: the token string has three
segments, its header decodes and names a registered signing method, its
signature segment decodes, and method `Verify` of that method passes for the
first two segments under `key`. -/
def verifyPasses (L : Lib) (key : String) (tokenString : String) : Bool :=
  match splitOnDot tokenString.data with
  | [p0, p1, p2] =>
    match (L.DecodeSegment (String.mk p0)).bind L.Unmarshal, L.DecodeSegment (String.mk p2) with
    | some header, some sig =>
      match header.index "alg" with
      | .string alg =>
        match GetSigningMethod alg with
        | some method => method.Verify L (String.mk (p0 ++ '.' :: p1)) sig key
        | none => false
      | _ => false
    | _, _ => false
  | _ => false

/-- The claims of a token string: the decoded second segment of three. -/
def claimsOf (L : Lib) (tokenString : String) : Option GoMap :=
  match splitOnDot tokenString.data with
  | [_, p1, _] => (L.DecodeSegment (String.mk p1)).bind L.Unmarshal
  | _ => none

/-- The expiry instant of a token string: its `exp` claim, when that is a number. -/
def expiryOf (L : Lib) (tokenString : String) : Option Time :=
  match claimsOf L tokenString with
  | some claims =>
    match claims.lookup "exp" with
    | some (.float64 f) => some (newNumericDateFromSeconds L f)
    | _ => none
  | none => none

/-- The expiry check as the validator performs it: `exp` is absent, or zero, or
a number whose `NumericDate` is strictly after `now`. -/
def expiryAdmits (L : Lib) (claims : GoMap) (now : Time) : Prop :=
  claims.lookup "exp" = none ∨
  ∃ f, claims.lookup "exp" = some (.float64 f) ∧ (f = 0 ∨ now < newNumericDateFromSeconds L f)

/-- The not-before check as the validator performs it: `nbf` is absent, or zero,
or a number whose `NumericDate` is not after `now`. -/
def notBeforeAdmits (L : Lib) (claims : GoMap) (now : Time) : Prop :=
  claims.lookup "nbf" = none ∨
  ∃ f, claims.lookup "nbf" = some (.float64 f) ∧ (f = 0 ∨ newNumericDateFromSeconds L f ≤ now)

/-- A request carrying `Authorization: Bearer <token>` and the given body. -/
def bearerRequest (token : String) (body : String) : Request :=
  { Header := [("Authorization", "Bearer " ++ token)], Body := body }

/-- The token `SignedString` yields, or the empty string on error. -/
def tokenOrEmpty (r : Except Unit String) : String :=
  match r with
  | .ok s => s
  | .error _ => ""

/-- The token login issues to user 7 at instant 0 under the key `k`: it expires
at second 900. -/
def user7Token : String :=
  tokenOrEmpty (SignedString refLib .HS256 [("sub", .int32 7), ("exp", .int64 900)] "k")

/-- A token signed under the key `k` whose payload has `exp` 900 and no `sub`. -/
def noSubToken : String :=
  tokenOrEmpty (SignedString refLib .HS256 [("exp", .int64 900)] "k")

/-- A token signed under the key `k` whose `sub` is the text `abc`. -/
def textSubToken : String :=
  tokenOrEmpty (SignedString refLib .HS256 [("sub", .string "abc"), ("exp", .int64 900)] "k")

/-- An environment with `JWT_SECRET` set to `k` and nothing else. -/
def envWithSecret (k : String) : Env :=
  fun key => if key = "JWT_SECRET" then some k else none

/-- An environment in which no variable is set. -/
def emptyEnv : Env := fun _ => none

/-! ## The reference library is lawful -/

namespace Ref

theorem toNat_ofNat (n : Nat) : (UInt8.ofNat n).toNat = n % 256 := rfl

theorem ofNat_toNat (x : UInt8) : UInt8.ofNat x.toNat = x := by
  cases x with
  | mk v =>
    apply congrArg UInt8.mk
    exact BitVec.ofNat_toNat _ _ |>.trans (by simp)

theorem toNat_lt (x : UInt8) : x.toNat < 256 := x.toBitVec.isLt

theorem toNat_encodeByte (x : UInt8) : (encodeByte x).toNat = x.toNat + 65 := by
  have hx : x.toNat < 256 := toNat_lt x
  unfold encodeByte
  have hv : (x.toNat + 65).isValidChar := by
    left; omega
  simp only [Char.ofNat, hv, dite_true]
  rfl

theorem decodeByte_encodeByte (x : UInt8) : decodeByte (encodeByte x) = some x := by
  have hx : x.toNat < 256 := toNat_lt x
  unfold decodeByte
  rw [toNat_encodeByte]
  have h : 65 ≤ x.toNat + 65 ∧ x.toNat + 65 < 65 + 256 := by omega
  rw [if_pos h, Nat.add_sub_cancel, ofNat_toNat]

theorem decodeChars_encode (b : Bytes) : decodeChars (b.map encodeByte) = some b := by
  induction b with
  | nil => rfl
  | cons x xs ih => simp [decodeChars, decodeByte_encodeByte, ih]

theorem encodeByte_ne_dot (x : UInt8) : encodeByte x ≠ '.' := by
  intro h
  have h1 := toNat_encodeByte x
  rw [h] at h1
  have h2 : ('.' : Char).toNat = 46 := rfl
  omega

theorem natBytes_sum (a : Nat) (h : a < 2 ^ 64) :
    (UInt8.ofNat (a / 256 ^ 7 % 256)).toNat * 256 ^ 7 + (UInt8.ofNat (a / 256 ^ 6 % 256)).toNat * 256 ^ 6
    + (UInt8.ofNat (a / 256 ^ 5 % 256)).toNat * 256 ^ 5 + (UInt8.ofNat (a / 256 ^ 4 % 256)).toNat * 256 ^ 4
    + (UInt8.ofNat (a / 256 ^ 3 % 256)).toNat * 256 ^ 3 + (UInt8.ofNat (a / 256 ^ 2 % 256)).toNat * 256 ^ 2
    + (UInt8.ofNat (a / 256 % 256)).toNat * 256 + (UInt8.ofNat (a % 256)).toNat = a := by
  simp only [toNat_ofNat, Nat.mod_mod]
  norm_num at h ⊢
  omega

theorem unmarshal_number (k : UInt8) (n : Int) (h : n.natAbs < 2 ^ 64) (rest : Bytes) :
    unmarshal (k :: 0 :: (intBytes n ++ rest)) =
      match keys.get? k.toNat, unmarshal rest with
      | some key, some m => some ((key, .float64 n) :: m)
      | _, _ => none := by
  have hs := natBytes_sum n.natAbs h
  simp only [intBytes, natBytes, List.cons_append, List.nil_append, unmarshal]
  rw [hs]
  have hn : (if (if n < 0 then (1 : UInt8) else 0) = 0 then (n.natAbs : Int) else -(n.natAbs : Int)) = n := by
    by_cases hneg : n < 0
    · rw [if_pos hneg, if_neg (by decide)]; omega
    · rw [if_neg hneg, if_pos rfl]; omega
  rw [hn]
  rfl

theorem refLib_lawful : refLib.Lawful where
  decode_encode b := decodeChars_encode b
  encode_noDot b := by
    simp only [refLib, List.mem_map, not_exists, not_and]
    intro x _
    exact encodeByte_ne_dot x
  header := ⟨_, _, rfl, rfl, fun _ => rfl⟩
  claims n e hn he := by
    have hn64 : n.natAbs < 2 ^ 64 := lt_of_le_of_lt hn (by norm_num)
    have he64 : e.natAbs < 2 ^ 64 := lt_of_le_of_lt he (by norm_num)
    refine ⟨[2, 0] ++ intBytes n ++ ([3, 0] ++ intBytes e), [("sub", .float64 n), ("exp", .float64 e)], ?_, ?_, fun _ => rfl⟩
    · rfl
    · show unmarshal _ = _
      have h1 := unmarshal_number 2 n hn64 (3 :: 0 :: (intBytes e ++ []))
      have h2 := unmarshal_number 3 e he64 []
      simp only [List.cons_append, List.nil_append, List.append_nil] at h1 h2 ⊢
      rw [h1, h2]
      rfl

end Ref


/-! ## Login -/

/-- Claim C4.  With the same request, the login handler answers a failed user
lookup exactly as it answers a password that does not match the stored hash:
status 401 and no body. -/
theorem login_failure_indistinguishable (L : Lib) (q₁ q₂ : Queries) (env₁ env₂ : Env)
    (now₁ now₂ : Time) (r : Request) (req : LoginRequest) (user : User)
    (hbind : L.BindLogin r.Body = some req)
    (hunknown : q₁.GetUserByEmail req.Email = .error ())
    (hknown : q₂.GetUserByEmail req.Email = .ok user)
    (hwrong : L.CompareHashAndPassword user.PasswordHash req.Password = false) :
    login L q₁ env₁ now₁ (Context.new r) = login L q₂ env₂ now₂ (Context.new r) ∧
    ∃ c, login L q₁ env₁ now₁ (Context.new r) = .done c ∧ c.status = 401 ∧ c.body = none := by
  have hb : L.BindLogin (Context.new r).Request.Body = some req := hbind
  refine ⟨?_, ((Context.new r).call (.GetUserByEmail req.Email)).Status 401, ?_, rfl, rfl⟩
  · simp only [login, hb, hunknown, hknown, hwrong]
    simp
  · simp only [login, hb, hunknown]

/-- Witness of C4: the address `a@x.com` with a wrong password, against an empty
database and against one that holds the address. -/
theorem login_failure_indistinguishable_witness :
    login refLib noQueries emptyEnv 0 (Context.new { Header := [], Body := "a@x.com wrong" }) =
      login refLib refQueries emptyEnv 0 (Context.new { Header := [], Body := "a@x.com wrong" }) ∧
    ∃ c, login refLib noQueries emptyEnv 0 (Context.new { Header := [], Body := "a@x.com wrong" })
      = .done c ∧ c.status = 401 ∧ c.body = none :=
  login_failure_indistinguishable refLib noQueries refQueries emptyEnv emptyEnv 0 0
    { Header := [], Body := "a@x.com wrong" } { Email := "a@x.com", Password := "wrong" }
    { ID := 7, PasswordHash := "bcrypt:correct" } (by decide) rfl rfl (by decide)

/-- Counterexample to C8: a body that does not decode is answered with
status 400, which is neither 200 nor 401. -/
theorem login_unparseable_body_400 :
    login refLib refQueries emptyEnv 0 (Context.new { Header := [], Body := "" }) =
      .done (((Context.new { Header := [], Body := "" }).AbortWithStatus 400).Status 400) ∧
    (((Context.new { Header := [], Body := "" }).AbortWithStatus 400).Status 400).status = 400 ∧
    (((Context.new { Header := [], Body := "" }).AbortWithStatus 400).Status 400).status ≠ 200 ∧
    (((Context.new { Header := [], Body := "" }).AbortWithStatus 400).Status 400).status ≠ 401 := by
  decide

/-- Claim C8, amended.  The login handler always returns, with one of four
outcomes: 400 without a body when the request body does not decode; 401 without
a body when the lookup fails or the password does not match; 500 without a body
when signing fails; 200 with a body holding `access_token` otherwise. -/
theorem login_outcomes (L : Lib) (q : Queries) (env : Env) (now : Time) (r : Request) :
    ∃ c, login L q env now (Context.new r) = .done c ∧
      ((L.BindLogin r.Body = none ∧ c.status = 400 ∧ c.body = none) ∨
       (∃ req, L.BindLogin r.Body = some req ∧
          (q.GetUserByEmail req.Email = .error () ∨
            ∃ u, q.GetUserByEmail req.Email = .ok u ∧
              L.CompareHashAndPassword u.PasswordHash req.Password = false) ∧
          c.status = 401 ∧ c.body = none) ∨
       (∃ req u, L.BindLogin r.Body = some req ∧ q.GetUserByEmail req.Email = .ok u ∧
          L.CompareHashAndPassword u.PasswordHash req.Password = true ∧
          SignedString L .HS256 [("sub", .int32 u.ID), ("exp", .int64 (expiryUnix now))]
            (Getenv env "JWT_SECRET") = .error () ∧
          c.status = 500 ∧ c.body = none) ∨
       (∃ req u tok, L.BindLogin r.Body = some req ∧ q.GetUserByEmail req.Email = .ok u ∧
          L.CompareHashAndPassword u.PasswordHash req.Password = true ∧
          SignedString L .HS256 [("sub", .int32 u.ID), ("exp", .int64 (expiryUnix now))]
            (Getenv env "JWT_SECRET") = .ok tok ∧
          c.status = 200 ∧ c.body = some (.H [("access_token", .string tok)]))) := by
  cases hb : L.BindLogin r.Body with
  | none =>
    have hb2 : L.BindLogin (Context.new r).Request.Body = none := hb
    exact ⟨((Context.new r).AbortWithStatus 400).Status 400, by simp only [login, hb2],
      Or.inl ⟨rfl, rfl, rfl⟩⟩
  | some req =>
    have hb2 : L.BindLogin (Context.new r).Request.Body = some req := hb
    cases hq : q.GetUserByEmail req.Email with
    | error e =>
      exact ⟨((Context.new r).call (.GetUserByEmail req.Email)).Status 401,
        by simp only [login, hb2, hq], Or.inr (Or.inl ⟨req, rfl, Or.inl hq, rfl, rfl⟩)⟩
    | ok u =>
      cases hp : L.CompareHashAndPassword u.PasswordHash req.Password with
      | false =>
        exact ⟨((Context.new r).call (.GetUserByEmail req.Email)).Status 401,
          by simp [login, hb2, hq, hp],
          Or.inr (Or.inl ⟨req, rfl, Or.inr ⟨u, hq, hp⟩, rfl, rfl⟩)⟩
      | true =>
        cases hs : SignedString L .HS256
            [("sub", .int32 u.ID), ("exp", .int64 (expiryUnix now))] (Getenv env "JWT_SECRET") with
        | error e =>
          exact ⟨((Context.new r).call (.GetUserByEmail req.Email)).Status 500,
            by simp [login, hb2, hq, hp, hs],
            Or.inr (Or.inr (Or.inl ⟨req, u, rfl, hq, hp, hs, rfl, rfl⟩))⟩
        | ok tok =>
          exact ⟨((Context.new r).call (.GetUserByEmail req.Email)).JSON 200
              (.H [("access_token", .string tok)]),
            by simp [login, hb2, hq, hp, hs],
            Or.inr (Or.inr (Or.inr ⟨req, u, tok, rfl, hq, hp, hs, rfl, rfl⟩))⟩

/-! ## Startup -/

/-- Counterexample to C9: with no variable set in the environment and a
database handle that opens, `main` does not end in `log.Fatal`; it serves, and a
login with valid credentials returns status 200 with a token signed with the
empty key. -/
theorem main_serves_without_secret :
    (main refLib (fun _ => .ok refQueries) emptyEnv).isFatal = false ∧
    (main refLib (fun _ => .ok refQueries) emptyEnv).serve emptyEnv 0 "POST" "/login"
        (Context.new { Header := [], Body := "a@x.com correct" }) =
      some (.done (((Context.new { Header := [], Body := "a@x.com correct" }).call
        (.GetUserByEmail "a@x.com")).JSON 200
        (.H [("access_token", .string (tokenOrEmpty
          (SignedString refLib .HS256 [("sub", .int32 7), ("exp", .int64 900)] "")))]))) := by
  decide

/-- Claim C9, amended.  When `JWT_SECRET` is not set, startup is not aborted on
that account: `main` is fatal exactly when `sql.Open` fails.  `os.Getenv` yields
the empty string, so the login handler signs with the empty key and the
middleware of the protected routes verifies against the empty key. -/
theorem unset_secret_is_empty_key (L : Lib) (sqlOpen : String → Except Unit Queries)
    (q : Queries) (env reqEnv : Env) (now : Time)
    (hunset : env "JWT_SECRET" = none) :
    ((main L sqlOpen env).isFatal = true ↔ ∃ e, sqlOpen (Getenv env "DATABASE_URL") = .error e) ∧
    login L q env now = login L q (envWithSecret "") now ∧
    RegisterRoutes L q env reqEnv now "GET" "/users/me" =
      some (AuthMiddleware L "" now usersMe) ∧
    RegisterRoutes L q env reqEnv now "POST" "/orders" =
      some (AuthMiddleware L "" now (createOrder L q)) ∧
    RegisterRoutes L q env reqEnv now "GET" "/orders" =
      some (AuthMiddleware L "" now (listOrders q)) := by
  have hs : Getenv env "JWT_SECRET" = "" := by simp [Getenv, hunset]
  have hs2 : Getenv (envWithSecret "") "JWT_SECRET" = "" := by simp [Getenv, envWithSecret]
  refine ⟨?_, ?_, ?_, ?_, ?_⟩
  · unfold main
    cases sqlOpen (Getenv env "DATABASE_URL") with
    | error e => simp [Process.isFatal]
    | ok queries => simp [Process.isFatal]
  · funext c
    simp only [login, hs, hs2]
  · simp [RegisterRoutes, hs]
  · simp [RegisterRoutes, hs]
  · simp [RegisterRoutes, hs]

/-- Witness of C9 (amended): the empty environment. -/
theorem unset_secret_is_empty_key_witness :
    login refLib refQueries emptyEnv 0 = login refLib refQueries (envWithSecret "") 0 ∧
    RegisterRoutes refLib refQueries emptyEnv emptyEnv 0 "GET" "/users/me" =
      some (AuthMiddleware refLib "" 0 usersMe) :=
  have h := unset_secret_is_empty_key refLib (fun _ => .ok refQueries) refQueries emptyEnv
    emptyEnv 0 rfl
  ⟨h.2.1, h.2.2.1⟩

/-! ## The middleware -/

/-- Claim C5.  When the Authorization header is absent or lacks the scheme
`Bearer `, or `jwt.Parse` returns an error, or a token that is not valid, the
middleware answers 401, aborts the chain, leaves `Keys` as they were, and its
result does not depend on the downstream chain.  In general the middleware ends
in exactly one of three ways: that 401; a panic; or the downstream chain run
after a parse without error of a valid token. -/
theorem AuthMiddleware_fail_closed (L : Lib) (secret : String) (now : Time) (c : Context) :
    ((HasPrefix (c.GetHeader "Authorization") "Bearer " = false ∨
      (Parse L secret now (TrimPrefix (c.GetHeader "Authorization") "Bearer ")).err ≠ none ∨
      ∃ t, (Parse L secret now (TrimPrefix (c.GetHeader "Authorization") "Bearer ")).token
          = some t ∧ t.Valid = false) →
      (∀ next, AuthMiddleware L secret now next c = .done (c.AbortWithStatus 401)) ∧
      (c.AbortWithStatus 401).status = 401 ∧ (c.AbortWithStatus 401).aborted = true ∧
      (c.AbortWithStatus 401).Keys = c.Keys) ∧
    ((∀ next, AuthMiddleware L secret now next c = .done (c.AbortWithStatus 401)) ∨
     (∀ next, AuthMiddleware L secret now next c = .panic c) ∨
     (∃ t f, HasPrefix (c.GetHeader "Authorization") "Bearer " = true ∧
        Parse L secret now (TrimPrefix (c.GetHeader "Authorization") "Bearer ")
          = ⟨some t, none⟩ ∧ t.Valid = true ∧
        ∀ next, AuthMiddleware L secret now next c =
          next (c.Set "user_id" (.int32 (int32OfFloat64 L f))))) := by
  constructor
  · intro h
    refine ⟨fun next => ?_, rfl, rfl, rfl⟩
    unfold AuthMiddleware
    rcases h with h | h | ⟨t, ht, hv⟩
    · simp [h]
    · by_cases hp : HasPrefix (c.GetHeader "Authorization") "Bearer " = true
      · simp only [hp, not_true_eq_false, if_false]
        cases he : (Parse L secret now (TrimPrefix (c.GetHeader "Authorization") "Bearer ")).err with
        | none => exact absurd he h
        | some e => rfl
      · simp [hp]
    · by_cases hp : HasPrefix (c.GetHeader "Authorization") "Bearer " = true
      · simp only [hp, not_true_eq_false, if_false]
        cases he : (Parse L secret now (TrimPrefix (c.GetHeader "Authorization") "Bearer ")).err with
        | none => simp [ht, hv]
        | some e => rfl
      · simp [hp]
  · by_cases hp : HasPrefix (c.GetHeader "Authorization") "Bearer " = true
    · cases hr : Parse L secret now (TrimPrefix (c.GetHeader "Authorization") "Bearer ") with
      | mk tok err =>
        cases err with
        | some e => exact Or.inl fun _ => by simp [AuthMiddleware, hp, hr]
        | none =>
          cases tok with
          | none => exact Or.inr (Or.inl fun _ => by simp [AuthMiddleware, hp, hr])
          | some t =>
            by_cases hv : t.Valid = true
            · cases hsub : t.Claims.index "sub" with
              | float64 f =>
                exact Or.inr (Or.inr ⟨t, f, hp, rfl, hv, fun next => by
                  simp [AuthMiddleware, hp, hr, hv, hsub]⟩)
              | _ => exact Or.inr (Or.inl fun next => by simp [AuthMiddleware, hp, hr, hv, hsub])
            · exact Or.inl fun next => by simp [AuthMiddleware, hp, hr, hv]
    · exact Or.inl fun _ => by simp [AuthMiddleware, hp]

/-- Witness of C5: a request with the header `Authorization: Basic abc`. -/
theorem AuthMiddleware_fail_closed_witness :
    ∀ next, AuthMiddleware refLib "k" 0 next
        (Context.new { Header := [("Authorization", "Basic abc")], Body := "" }) =
      .done ((Context.new { Header := [("Authorization", "Basic abc")], Body := "" }).AbortWithStatus
        401) :=
  ((AuthMiddleware_fail_closed refLib "k" 0
    (Context.new { Header := [("Authorization", "Basic abc")], Body := "" })).1
      (Or.inl (by decide))).1


/-- What `jwt.Parse` does on a token string of three segments whose header,
claims, method and signature are known. -/
theorem Parse_segments (L : Lib) (key : String) (now : Time) (tokenString : String)
    (p0 p1 p2 : List Char) (header claims : GoMap) (alg : String) (method : SigningMethod)
    (sig : Bytes)
    (hsplit : splitOnDot tokenString.data = [p0, p1, p2])
    (hh : (L.DecodeSegment (String.mk p0)).bind L.Unmarshal = some header)
    (hc : (L.DecodeSegment (String.mk p1)).bind L.Unmarshal = some claims)
    (halg : header.index "alg" = .string alg)
    (hm : GetSigningMethod alg = some method)
    (hs : L.DecodeSegment (String.mk p2) = some sig)
    (hv : method.Verify L (String.mk (p0 ++ '.' :: p1)) sig key = true) :
    Parse L key now tokenString =
      match Validate L claims now with
      | [] => ⟨some { Raw := tokenString, Method := some method, Header := header,
                      Claims := claims, Signature := sig, Valid := true }, none⟩
      | errs => ⟨some { Raw := tokenString, Method := some method, Header := header,
                        Claims := claims, Signature := sig, Valid := false },
                 some (.ErrTokenInvalidClaims errs)⟩ := by
  unfold Parse
  simp only [hsplit, hh, hc, halg, hm, hs, hv, not_true_eq_false, if_false]

/-- A verified signature, decodable claims and a validator without findings give
a valid token without error. -/
theorem Parse_of_verified (L : Lib) (key : String) (now : Time) (tokenString : String)
    (claims : GoMap) (hsig : verifyPasses L key tokenString = true)
    (hc : claimsOf L tokenString = some claims) (hval : Validate L claims now = []) :
    ∃ t, Parse L key now tokenString = ⟨some t, none⟩ ∧ t.Valid = true ∧ t.Claims = claims := by
  unfold verifyPasses at hsig
  unfold claimsOf at hc
  split at hsig
  next p0 p1 p2 hsplit =>
    simp only [hsplit] at hc
    split at hsig
    next header sig hh hs =>
      split at hsig
      next alg halg =>
        split at hsig
        next method hm =>
          have hp := Parse_segments L key now tokenString p0 p1 p2 header claims alg method sig
            hsplit hh hc halg hm hs hsig
          rw [hval] at hp
          exact ⟨_, hp, rfl, rfl⟩
        next => exact absurd hsig (by simp)
      next => exact absurd hsig (by simp)
    next => exact absurd hsig (by simp)
  next => exact absurd hsig (by simp)

/-- The validator finds nothing exactly when expiry and not-before both allow
the instant. -/
theorem Validate_eq_nil_iff (L : Lib) (claims : GoMap) (now : Time) :
    Validate L claims now = [] ↔ expiryAdmits L claims now ∧ notBeforeAdmits L claims now := by
  have h1 : verifyExpiresAt L claims now = none ↔ expiryAdmits L claims now := by
    unfold verifyExpiresAt parseNumericDate expiryAdmits
    cases hl : claims.lookup "exp" with
    | none => simp
    | some v =>
      cases v with
      | float64 f =>
        by_cases hf : f = 0
        · simp [hf]
        · simp [hf]
      | _ => simp
  have h2 : verifyNotBefore L claims now = none ↔ notBeforeAdmits L claims now := by
    unfold verifyNotBefore parseNumericDate notBeforeAdmits
    cases hl : claims.lookup "nbf" with
    | none => simp
    | some v =>
      cases v with
      | float64 f =>
        by_cases hf : f = 0
        · simp [hf]
        · simp [hf]
      | _ => simp
  rw [← h1, ← h2]
  unfold Validate
  cases verifyExpiresAt L claims now <;> cases verifyNotBefore L claims now <;> simp

/-- The scheme test succeeds on `Bearer ` followed by anything. -/
theorem HasPrefix_bearer (tok : String) : HasPrefix ("Bearer " ++ tok) "Bearer " = true := by
  simp [HasPrefix, String.data_append]

/-- Trimming the scheme leaves the token. -/
theorem TrimPrefix_bearer (tok : String) : TrimPrefix ("Bearer " ++ tok) "Bearer " = tok := by
  unfold TrimPrefix
  rw [HasPrefix_bearer, if_pos rfl]
  simp [String.data_append]

/-- Failing input of C6: a token signed under the secret whose payload has no
`sub` claim.  The middleware panics on the type assertion; it does not answer
401. -/
theorem AuthMiddleware_panics_without_sub :
    AuthMiddleware refLib "k" (10 ^ 9) usersMe (Context.new (bearerRequest noSubToken "")) =
      .panic (Context.new (bearerRequest noSubToken "")) ∧
    AuthMiddleware refLib "k" (10 ^ 9) usersMe (Context.new (bearerRequest textSubToken "")) =
      .panic (Context.new (bearerRequest textSubToken "")) ∧
    (main refLib (fun _ => .ok refQueries) (envWithSecret "k")).serve (envWithSecret "k") (10 ^ 9)
        "GET" "/users/me" (Context.new (bearerRequest noSubToken "")) =
      some (.done ((Context.new (bearerRequest noSubToken "")).AbortWithStatus 500)) := by
  decide

/-! ## Issued tokens -/

/-- A text without a dot is a single segment. -/
theorem splitOnDot_noDot (a : List Char) (h : '.' ∉ a) : splitOnDot a = [a] := by
  induction a with
  | nil => rfl
  | cons x xs ih =>
    have hx : x ≠ '.' := fun e => h (by simp [e])
    have hxs : '.' ∉ xs := fun e => h (by simp [e])
    simp [splitOnDot, hx, ih hxs]

/-- A text without a dot, then a dot, is the first segment of the whole. -/
theorem splitOnDot_append (a r : List Char) (h : '.' ∉ a) :
    splitOnDot (a ++ '.' :: r) = a :: splitOnDot r := by
  induction a with
  | nil => simp [splitOnDot]
  | cons x xs ih =>
    have hx : x ≠ '.' := fun e => h (by simp [e])
    have hxs : '.' ∉ xs := fun e => h (by simp [e])
    simp [splitOnDot, hx, ih hxs]

/-- With a verified signature and decodable claims, the error of `jwt.Parse` is
what the validator finds. -/
theorem Parse_err_of_verified (L : Lib) (key : String) (now : Time) (tokenString : String)
    (claims : GoMap) (hsig : verifyPasses L key tokenString = true)
    (hc : claimsOf L tokenString = some claims) :
    (Parse L key now tokenString).err =
      match Validate L claims now with
      | [] => none
      | errs => some (.ErrTokenInvalidClaims errs) := by
  unfold verifyPasses at hsig
  unfold claimsOf at hc
  split at hsig
  next p0 p1 p2 hsplit =>
    simp only [hsplit] at hc
    split at hsig
    next header sig hh hs =>
      split at hsig
      next alg halg =>
        split at hsig
        next method hm =>
          rw [Parse_segments L key now tokenString p0 p1 p2 header claims alg method sig
            hsplit hh hc halg hm hs hsig]
          split <;> simp_all
        next => exact absurd hsig (by simp)
      next => exact absurd hsig (by simp)
    next => exact absurd hsig (by simp)
  next => exact absurd hsig (by simp)

/-- With a lawful library, signing a claims object of subject and expiry under
HS256 succeeds, and the resulting token has a signature that verifies under the
same key and claims that decode to the same two numbers. -/
theorem SignedString_verifies (L : Lib) (hL : L.Lawful) (key : String) (n e : Int)
    (hn : n.natAbs ≤ 2 ^ 53) (he : e.natAbs ≤ 2 ^ 53) :
    ∃ tok claims,
      SignedString L .HS256 [("sub", .int32 n), ("exp", .int64 e)] key = .ok tok ∧
      verifyPasses L key tok = true ∧ claimsOf L tok = some claims ∧
      ∀ k, claims.lookup k = ([("sub", .float64 n), ("exp", .float64 e)] : GoMap).lookup k := by
  obtain ⟨hb, hm, hmar, hunm, hlook⟩ := hL.header
  obtain ⟨cb, cm, cmar, cunm, clook⟩ := hL.claims n e hn he
  have hsplit : ∀ sig : Bytes,
      splitOnDot (L.EncodeSegment hb ++ "." ++ L.EncodeSegment cb ++ "." ++
        L.EncodeSegment sig).data =
      [(L.EncodeSegment hb).data, (L.EncodeSegment cb).data, (L.EncodeSegment sig).data] := by
    intro sig
    have e1 : (L.EncodeSegment hb ++ "." ++ L.EncodeSegment cb ++ "." ++
        L.EncodeSegment sig).data =
        (L.EncodeSegment hb).data ++ '.' :: ((L.EncodeSegment cb).data ++ '.' ::
          (L.EncodeSegment sig).data) := by
      simp [String.data_append]
    rw [e1, splitOnDot_append _ _ (hL.encode_noDot hb), splitOnDot_append _ _ (hL.encode_noDot cb),
      splitOnDot_noDot _ (hL.encode_noDot sig)]
  have hstr : (String.mk ((L.EncodeSegment hb).data ++ '.' :: (L.EncodeSegment cb).data)) =
      L.EncodeSegment hb ++ "." ++ L.EncodeSegment cb := by
    apply String.ext
    simp [String.data_append]
  have halg : hm.index "alg" = .string "HS256" := by
    simp [GoMap.index, hlook "alg", List.lookup]
  refine ⟨L.EncodeSegment hb ++ "." ++ L.EncodeSegment cb ++ "." ++
      L.EncodeSegment (L.hmac .HS256 key (L.EncodeSegment hb ++ "." ++ L.EncodeSegment cb)),
    cm, ?_, ?_, ?_, clook⟩
  · have : SigningMethod.HS256.Alg = "HS256" := rfl
    simp [SignedString, this, hmar, cmar, SigningMethod.Sign]
  · unfold verifyPasses
    rw [hsplit]
    have hsm : GetSigningMethod "HS256" = some .HS256 := by decide
    simp [hL.decode_encode, hunm, halg, hsm, SigningMethod.Verify, hstr]
  · unfold claimsOf
    rw [hsplit]
    simp [hL.decode_encode, cunm]


/-- Go `int32(f)` is exact on a float64 that holds an int32 value. -/
theorem int32OfFloat64_intCast (L : Lib) (n : Int) (h : -2 ^ 31 ≤ n ∧ n < 2 ^ 31) :
    int32OfFloat64 L (n : ℚ) = n := by
  unfold int32OfFloat64
  by_cases h0 : (0 : ℚ) ≤ (n : ℚ)
  · simp only [h0, if_true, Int.floor_intCast]
    rw [if_pos h]
  · simp only [h0, if_false, Int.ceil_intCast]
    rw [if_pos h]

/-- A whole number of seconds of magnitude at most 2^53 is the instant it names. -/
theorem newNumericDateFromSeconds_intCast (L : Lib) (e : Int) (h : e.natAbs ≤ 2 ^ 53) :
    newNumericDateFromSeconds L (e : ℚ) = e * 10 ^ 9 := by
  unfold newNumericDateFromSeconds
  have hd : ((e : ℚ)).den = 1 := Rat.den_intCast e
  have hnum : ((e : ℚ)).num = e := Rat.num_intCast e
  rw [if_pos ⟨hd, by rw [hnum]; exact h⟩, hnum]

/-- The expiry that login computes from a clock between 1970 and 2262 is
positive and at most 2^53 seconds. -/
theorem expiryUnix_bounds (issued : Int) (h : 0 ≤ issued ∧ issued < 2 ^ 63) :
    0 < expiryUnix issued ∧ (expiryUnix issued).natAbs ≤ 2 ^ 53 := by
  unfold expiryUnix
  have ha : (0 : Int) ≤ issued := h.1
  have hb : issued < 9223372036854775808 := by
    have := h.2
    norm_num at this
    exact this
  have h1 : (900 : Int) ≤ (issued + 15 * (60 * 10 ^ 9)) / 10 ^ 9 := by omega
  have h2 : (issued + 15 * (60 * 10 ^ 9)) / 10 ^ 9 ≤ 2 ^ 53 := by omega
  constructor
  · omega
  · omega

/-- The login handler on good credentials: status 200 and the signed token. -/
theorem login_ok (L : Lib) (q : Queries) (env : Env) (issued : Time) (r : Request)
    (req : LoginRequest) (user : User) (tok : String)
    (hbind : L.BindLogin r.Body = some req)
    (hq : q.GetUserByEmail req.Email = .ok user)
    (hpw : L.CompareHashAndPassword user.PasswordHash req.Password = true)
    (hs : SignedString L .HS256 [("sub", .int32 user.ID), ("exp", .int64 (expiryUnix issued))]
      (Getenv env "JWT_SECRET") = .ok tok) :
    login L q env issued (Context.new r) =
      .done (((Context.new r).call (.GetUserByEmail req.Email)).JSON 200
        (.H [("access_token", .string tok)])) := by
  have hb2 : L.BindLogin (Context.new r).Request.Body = some req := hbind
  simp [login, hb2, hq, hpw, hs]

/-- The expiry instant of a token whose claims hold a whole number of seconds
under `exp`. -/
theorem expiryOf_whole (L : Lib) (tok : String) (claims : GoMap) (e : Int)
    (hcl : claimsOf L tok = some claims)
    (hexp : claims.lookup "exp" = some (.float64 e)) (he : e.natAbs ≤ 2 ^ 53) :
    expiryOf L tok = some (e * 10 ^ 9) := by
  unfold expiryOf
  rw [hcl]
  simp only [hexp, newNumericDateFromSeconds_intCast L e he]

/-- Claim C1.  With a lawful codec, a user id in the int32 range, a clock
between 1970 and 2262 at login, and the same `JWT_SECRET` at route registration
and at login: login answers status 200 with a body holding a token whose expiry
instant is the issue instant plus 15 minutes, cut to whole seconds; and for
every request that presents that token as `Authorization: Bearer <token>`
strictly before that instant, the middleware runs the downstream chain on a
context whose `Keys` bind `user_id` to exactly the user id, as an `int32`. -/
theorem login_token_round_trip (L : Lib) (hL : L.Lawful) (q : Queries) (regEnv env : Env)
    (issued now : Time) (r : Request) (req : LoginRequest) (user : User)
    (hsecret : Getenv regEnv "JWT_SECRET" = Getenv env "JWT_SECRET")
    (hbind : L.BindLogin r.Body = some req)
    (hq : q.GetUserByEmail req.Email = .ok user)
    (hpw : L.CompareHashAndPassword user.PasswordHash req.Password = true)
    (hid : -2 ^ 31 ≤ user.ID ∧ user.ID < 2 ^ 31)
    (hclock : 0 ≤ issued ∧ issued < 2 ^ 63)
    (hnow : now < (issued + 15 * (60 * 10 ^ 9)) / 10 ^ 9 * 10 ^ 9) :
    ∃ tok c1,
      login L q env issued (Context.new r) = .done c1 ∧
      c1.status = 200 ∧ c1.body = some (.H [("access_token", .string tok)]) ∧
      expiryOf L tok = some ((issued + 15 * (60 * 10 ^ 9)) / 10 ^ 9 * 10 ^ 9) ∧
      ∀ c : Context, c.GetHeader "Authorization" = "Bearer " ++ tok →
        ∃ c2, (∀ next, AuthMiddleware L (Getenv regEnv "JWT_SECRET") now next c = next c2) ∧
          c2.Keys.lookup "user_id" = some (.int32 user.ID) ∧
          c2.Keys.index "user_id" = .int32 user.ID ∧
          c2.Request = c.Request ∧ c2.status = c.status ∧ c2.body = c.body ∧
          c2.aborted = c.aborted := by
  have hn53 : user.ID.natAbs ≤ 2 ^ 53 := by omega
  obtain ⟨hepos, he53⟩ := expiryUnix_bounds issued hclock
  have hnow2 : now < expiryUnix issued * 10 ^ 9 := hnow
  obtain ⟨tok, claims, hs, hsig, hcl, hlook⟩ :=
    SignedString_verifies L hL (Getenv env "JWT_SECRET") user.ID (expiryUnix issued) hn53 he53
  have hexp : claims.lookup "exp" = some (.float64 (expiryUnix issued)) := by
    rw [hlook]; simp [List.lookup]
  have hnbf : claims.lookup "nbf" = none := by
    rw [hlook]; simp [List.lookup]
  have hsub : claims.index "sub" = .float64 user.ID := by
    unfold GoMap.index; rw [hlook]; simp [List.lookup]
  have hval : Validate L claims now = [] := by
    rw [Validate_eq_nil_iff]
    refine ⟨Or.inr ⟨_, hexp, Or.inr ?_⟩, Or.inl hnbf⟩
    rw [newNumericDateFromSeconds_intCast L _ he53]
    exact hnow2
  refine ⟨tok, _, login_ok L q env issued r req user tok hbind hq hpw hs, rfl, rfl,
    expiryOf_whole L tok claims _ hcl hexp he53, fun c hh => ?_⟩
  refine ⟨c.Set "user_id" (.int32 user.ID), fun next => ?_, ?_, ?_, rfl, rfl, rfl, rfl⟩
  · rw [hsecret]
    obtain ⟨t, hr, hv, htc⟩ :=
      Parse_of_verified L (Getenv env "JWT_SECRET") now tok claims hsig hcl hval
    subst htc
    simp [AuthMiddleware, hh, HasPrefix_bearer, TrimPrefix_bearer, hr, hv, hsub,
      int32OfFloat64_intCast L user.ID hid]
  · simp [Context.Set, GoMap.set, List.lookup]
  · simp [Context.Set, GoMap.set, GoMap.index, List.lookup]

/-- Witness of C1: user 7 logs in at instant 0 under the key `k` and presents
the token one second later. -/
theorem login_token_round_trip_witness :
    ∃ tok c1,
      login refLib refQueries (envWithSecret "k") 0
          (Context.new { Header := [], Body := "a@x.com correct" }) = .done c1 ∧
      c1.status = 200 ∧ c1.body = some (.H [("access_token", .string tok)]) ∧
      expiryOf refLib tok = some ((0 + 15 * (60 * 10 ^ 9)) / 10 ^ 9 * 10 ^ 9) ∧
      ∀ c : Context, c.GetHeader "Authorization" = "Bearer " ++ tok →
        ∃ c2, (∀ next, AuthMiddleware refLib (Getenv (envWithSecret "k") "JWT_SECRET") (10 ^ 9)
            next c = next c2) ∧
          c2.Keys.lookup "user_id" = some (.int32 7) ∧
          c2.Keys.index "user_id" = .int32 7 ∧
          c2.Request = c.Request ∧ c2.status = c.status ∧ c2.body = c.body ∧
          c2.aborted = c.aborted :=
  login_token_round_trip refLib Ref.refLib_lawful refQueries (envWithSecret "k")
    (envWithSecret "k") 0 (10 ^ 9) { Header := [], Body := "a@x.com correct" }
    { Email := "a@x.com", Password := "correct" } { ID := 7, PasswordHash := "bcrypt:correct" }
    rfl (by decide) rfl (by decide) (by decide) (by decide) (by decide)

/-- Claim C3.  With a lawful codec, a user id in the int32 range, a clock
between 1970 and 2262 at login, and the same `JWT_SECRET` at route registration
and at login: login answers status 200 with a token whose expiry instant is the
issue instant plus 15 minutes, cut to whole seconds; at every instant at or
after it `jwt.Parse` fails with the claims error that holds `ErrTokenExpired`
and nothing else, and the middleware, whatever the downstream chain, returns
with status 401, the chain aborted and `Keys` as they were. -/
theorem login_token_expires (L : Lib) (hL : L.Lawful) (q : Queries) (regEnv env : Env)
    (issued now : Time) (r : Request) (req : LoginRequest) (user : User)
    (hsecret : Getenv regEnv "JWT_SECRET" = Getenv env "JWT_SECRET")
    (hbind : L.BindLogin r.Body = some req)
    (hq : q.GetUserByEmail req.Email = .ok user)
    (hpw : L.CompareHashAndPassword user.PasswordHash req.Password = true)
    (hid : -2 ^ 31 ≤ user.ID ∧ user.ID < 2 ^ 31)
    (hclock : 0 ≤ issued ∧ issued < 2 ^ 63)
    (hnow : (issued + 15 * (60 * 10 ^ 9)) / 10 ^ 9 * 10 ^ 9 ≤ now) :
    ∃ tok c1,
      login L q env issued (Context.new r) = .done c1 ∧
      c1.status = 200 ∧ c1.body = some (.H [("access_token", .string tok)]) ∧
      expiryOf L tok = some ((issued + 15 * (60 * 10 ^ 9)) / 10 ^ 9 * 10 ^ 9) ∧
      (Parse L (Getenv regEnv "JWT_SECRET") now tok).err =
        some (.ErrTokenInvalidClaims [.ErrTokenExpired]) ∧
      ∀ c : Context, c.GetHeader "Authorization" = "Bearer " ++ tok →
        ∃ c2, (∀ next, AuthMiddleware L (Getenv regEnv "JWT_SECRET") now next c = .done c2) ∧
          c2.status = 401 ∧ c2.aborted = true ∧ c2.Keys = c.Keys ∧ c2.body = c.body ∧
          c2.calls = c.calls := by
  have hn53 : user.ID.natAbs ≤ 2 ^ 53 := by omega
  obtain ⟨hepos, he53⟩ := expiryUnix_bounds issued hclock
  have hnow2 : expiryUnix issued * 10 ^ 9 ≤ now := hnow
  obtain ⟨tok, claims, hs, hsig, hcl, hlook⟩ :=
    SignedString_verifies L hL (Getenv env "JWT_SECRET") user.ID (expiryUnix issued) hn53 he53
  have hexp : claims.lookup "exp" = some (.float64 (expiryUnix issued)) := by
    rw [hlook]; simp [List.lookup]
  have hnbf : claims.lookup "nbf" = none := by
    rw [hlook]; simp [List.lookup]
  have hne : ((expiryUnix issued : Int) : ℚ) ≠ 0 := by
    exact_mod_cast (ne_of_gt hepos)
  have hval : Validate L claims now = [.ErrTokenExpired] := by
    have hlt : ¬ now < expiryUnix issued * 10 ^ 9 := not_lt.2 hnow2
    simp only [Validate, verifyExpiresAt, verifyNotBefore, parseNumericDate, hexp, hnbf, hne,
      if_false, newNumericDateFromSeconds_intCast L _ he53, hlt]
    rfl
  have herr : (Parse L (Getenv regEnv "JWT_SECRET") now tok).err =
      some (.ErrTokenInvalidClaims [.ErrTokenExpired]) := by
    rw [hsecret, Parse_err_of_verified L _ now tok claims hsig hcl, hval]
  refine ⟨tok, _, login_ok L q env issued r req user tok hbind hq hpw hs, rfl, rfl,
    expiryOf_whole L tok claims _ hcl hexp he53, herr, fun c hh => ?_⟩
  refine ⟨c.AbortWithStatus 401, fun next => ?_, rfl, rfl, rfl, rfl, rfl⟩
  simp [AuthMiddleware, hh, HasPrefix_bearer, TrimPrefix_bearer, herr]

/-- Witness of C3: user 7 logs in at instant 0 under the key `k`; the token
expires at second 900 and is presented exactly then. -/
theorem login_token_expires_witness :
    ∃ tok c1,
      login refLib refQueries (envWithSecret "k") 0
          (Context.new { Header := [], Body := "a@x.com correct" }) = .done c1 ∧
      c1.status = 200 ∧ c1.body = some (.H [("access_token", .string tok)]) ∧
      expiryOf refLib tok = some ((0 + 15 * (60 * 10 ^ 9)) / 10 ^ 9 * 10 ^ 9) ∧
      (Parse refLib (Getenv (envWithSecret "k") "JWT_SECRET") (900 * 10 ^ 9) tok).err =
        some (.ErrTokenInvalidClaims [.ErrTokenExpired]) ∧
      ∀ c : Context, c.GetHeader "Authorization" = "Bearer " ++ tok →
        ∃ c2, (∀ next, AuthMiddleware refLib (Getenv (envWithSecret "k") "JWT_SECRET")
            (900 * 10 ^ 9) next c = .done c2) ∧
          c2.status = 401 ∧ c2.aborted = true ∧ c2.Keys = c.Keys ∧ c2.body = c.body ∧
          c2.calls = c.calls :=
  login_token_expires refLib Ref.refLib_lawful refQueries (envWithSecret "k")
    (envWithSecret "k") 0 (900 * 10 ^ 9) { Header := [], Body := "a@x.com correct" }
    { Email := "a@x.com", Password := "correct" } { ID := 7, PasswordHash := "bcrypt:correct" }
    rfl (by decide) rfl (by decide) (by decide) (by decide) (by decide)

/-! ## The identity read by the protected handlers -/

/-- What `GetInt` reads back after the middleware stored an `int32`: zero. -/
theorem GetInt_Set_int32 (c : Context) (id : Int) :
    (c.Set "user_id" (.int32 id)).GetInt "user_id" = 0 := by
  simp [Context.GetInt, Context.Set, GoMap.set, List.lookup]

/-- The middleware accepts the token of user 7 one second after it was issued
and stores 7. -/
theorem user7_accepted (next : HandlerFunc) :
    AuthMiddleware refLib "k" (10 ^ 9) next (Context.new (bearerRequest user7Token "")) =
      next ((Context.new (bearerRequest user7Token "")).Set "user_id" (.int32 7)) := by
  rfl

/-- Divergence of C7.  Whenever the middleware accepts a request and stores the
identity `id`, `GET /users/me` answers 200 with `user_id` 0, whatever `id` is. -/
theorem usersMe_ignores_identity (L : Lib) (secret : String) (now : Time) (c : Context)
    (id : Int)
    (h : ∀ next, AuthMiddleware L secret now next c = next (c.Set "user_id" (.int32 id))) :
    AuthMiddleware L secret now usersMe c =
      .done ((c.Set "user_id" (.int32 id)).JSON 200 (.H [("user_id", .int 0)])) := by
  rw [h]
  simp [usersMe, GetInt_Set_int32]

/-- Witness of the divergence of C7: the token of user 7. -/
theorem usersMe_ignores_identity_witness :
    AuthMiddleware refLib "k" (10 ^ 9) usersMe (Context.new (bearerRequest user7Token "")) =
      .done (((Context.new (bearerRequest user7Token "")).Set "user_id" (.int32 7)).JSON 200
        (.H [("user_id", .int 0)])) :=
  usersMe_ignores_identity refLib "k" (10 ^ 9) (Context.new (bearerRequest user7Token "")) 7
    user7_accepted

/-- Divergence of C10.  Whenever the middleware accepts a request and stores the
identity `id`, `POST /orders` with a body that decodes calls `CreateOrder` with
`UserID` 0, and `GET /orders` calls `ListOrdersByUser` with 0, whatever `id` is. -/
theorem orders_ignore_identity (L : Lib) (q : Queries) (secret : String) (now : Time)
    (c : Context) (id : Int)
    (h : ∀ next, AuthMiddleware L secret now next c = next (c.Set "user_id" (.int32 id))) :
    (∀ req, L.BindOrder c.Request.Body = some req →
      ∃ c2, AuthMiddleware L secret now (createOrder L q) c = .done c2 ∧
        c2.calls = c.calls ++
          [.CreateOrder { UserID := 0, Total := { String := L.Sprintf2 req.Total, Valid := true } }]) ∧
    ∃ c2, AuthMiddleware L secret now (listOrders q) c = .done c2 ∧
      c2.calls = c.calls ++ [.ListOrdersByUser 0] := by
  have hz : wrapInt32 0 = 0 := by decide
  constructor
  · intro req hreq
    have hreq2 : L.BindOrder (c.Set "user_id" (.int32 id)).Request.Body = some req := hreq
    rw [h]
    simp only [createOrder, hreq2, GetInt_Set_int32, hz]
    cases q.CreateOrder { UserID := 0, Total := { String := L.Sprintf2 req.Total, Valid := true } } with
    | error e => exact ⟨_, rfl, rfl⟩
    | ok o => exact ⟨_, rfl, rfl⟩
  · rw [h]
    simp only [listOrders, GetInt_Set_int32, hz]
    cases q.ListOrdersByUser 0 with
    | error e => exact ⟨_, rfl, rfl⟩
    | ok o => exact ⟨_, rfl, rfl⟩

/-- Witness of the divergence of C10: the token of user 7. -/
theorem orders_ignore_identity_witness :
    ∃ c2, AuthMiddleware refLib "k" (10 ^ 9) (listOrders refQueries)
        (Context.new (bearerRequest user7Token "")) = .done c2 ∧
      c2.calls = (Context.new (bearerRequest user7Token "")).calls ++ [.ListOrdersByUser 0] :=
  (orders_ignore_identity refLib refQueries "k" (10 ^ 9)
    (Context.new (bearerRequest user7Token "")) 7 user7_accepted).2

/-- End to end through `main`: the token that login issues to user 7, presented
to `GET /users/me` before it expires, is answered 200 with `user_id` 0. -/
theorem usersMe_answers_zero :
    (main refLib (fun _ => .ok refQueries) (envWithSecret "k")).serve (envWithSecret "k") (10 ^ 9)
        "GET" "/users/me" (Context.new (bearerRequest user7Token "")) =
      some (.done (((Context.new (bearerRequest user7Token "")).Set "user_id" (.int32 7)).JSON 200
        (.H [("user_id", .int 0)]))) := by
  decide

/-- End to end through `main`: with the token that login issues to user 7,
`POST /orders` calls `CreateOrder` with `UserID` 0 and `GET /orders` calls
`ListOrdersByUser` with 0, while `Keys` holds the identity 7. -/
theorem orders_act_for_user_zero :
    (∃ c, (main refLib (fun _ => .ok refQueries) (envWithSecret "k")).serve (envWithSecret "k")
        (10 ^ 9) "POST" "/orders" (Context.new (bearerRequest user7Token "total")) =
          some (.done c) ∧
      c.Keys.lookup "user_id" = some (.int32 7) ∧
      c.calls = [.CreateOrder { UserID := 0, Total := { String := "10.00", Valid := true } }]) ∧
    (∃ c, (main refLib (fun _ => .ok refQueries) (envWithSecret "k")).serve (envWithSecret "k")
        (10 ^ 9) "GET" "/orders" (Context.new (bearerRequest user7Token "")) = some (.done c) ∧
      c.Keys.lookup "user_id" = some (.int32 7) ∧
      c.calls = [.ListOrdersByUser 0]) := by
  exact ⟨⟨_, rfl, by decide, by decide⟩, ⟨_, rfl, by decide, by decide⟩⟩

end MiniECommerce
